import Mathlib

/-!
Shallow embedding of the dvag_scraper program (src/dvag_scraper.py) and
proofs about its sitemap walker, extraction/merge engine and fetch pipeline.

Modelling conventions:
* Python strings are Lean String; Python Optional[str] is Option String;
  Python truthiness of Optional[str] (None and "" are falsy) is the
  predicate truthy below.
* The HTML/XML/JSON parsing libraries (BeautifulSoup, json, ElementTree,
  requests) are external collaborators; their outputs are modelled as
  structured values (JsonVal, Xml, MicroPage, FetchOutcome) and the
  in-repository logic that consumes them is translated function by function.
* String.toLower / trim / endsWith from core do not reduce in the kernel,
  so the same operations are defined here over character lists.
-/

/-- Lowercase a string character by character (models Python str.lower for
the ASCII url/tag data this program handles). -/
def lower_str (s : String) : String :=
  String.mk (s.toList.map Char.toLower)

/-- Strip leading and trailing whitespace (models Python str.strip()). -/
def py_strip (s : String) : String :=
  String.mk (((s.toList.dropWhile Char.isWhitespace).reverse.dropWhile Char.isWhitespace).reverse)

/-- Check whether the second list starts with the first list. -/
def leads_list : List Char → List Char → Bool
  | [], _ => true
  | _ :: _, [] => false
  | p :: ps, c :: cs => p == c && leads_list ps cs

/-- Check whether string s ends with suffix suf (models str.endswith). -/
def ends_with_str (s suf : String) : Bool :=
  leads_list suf.toList.reverse s.toList.reverse

/-- Check whether pat occurs as a contiguous substring (models Python
"pat in s"). -/
def occurs_in (pat : List Char) : List Char → Bool
  | [] => leads_list pat []
  | c :: cs => leads_list pat (c :: cs) || occurs_in pat cs

/-- Truthiness of an Optional[str]: None and the empty string are falsy. -/
def truthy : Option String → Bool
  | none => false
  | some s => !(s == "")

/-- PROFILE_FRAGMENT constant from the source. -/
def PROFILE_FRAGMENT : String := "/vermoegensberater/"

/-- SITEMAP_NS constant from the source (ElementTree tag prefix form). -/
def SITEMAP_NS : String := "\x7bhttp://www.sitemaps.org/schemas/sitemap/0.9\x7d"

/-- Profile dataclass from the source: one advisor's contact sheet.
All fields default to None, exactly as in the dataclass. -/
structure Profile where
  name : Option String := none
  phone : Option String := none
  phone2 : Option String := none
  zip_code : Option String := none
  city : Option String := none
  street : Option String := none
  email : Option String := none
  profile_url : Option String := none
deriving DecidableEq

/-- Merge of one field of merge_profiles: the candidate value overwrites
the base value exactly when the candidate is truthy and the base is falsy
(source line: if value and not getattr(base, field_name)). -/
def merge_field (b e : Option String) : Option String :=
  if truthy e && !truthy b then e else b

/-- merge_profiles from the source: field-by-field merge over the eight
dataclass fields (asdict iterates all of them, profile_url included),
existing truthy data taking priority. -/
def merge_profiles (base extra : Profile) : Profile :=
  { name := merge_field base.name extra.name
    phone := merge_field base.phone extra.phone
    phone2 := merge_field base.phone2 extra.phone2
    zip_code := merge_field base.zip_code extra.zip_code
    city := merge_field base.city extra.city
    street := merge_field base.street extra.street
    email := merge_field base.email extra.email
    profile_url := merge_field base.profile_url extra.profile_url }

/-- The eight field projections of Profile, in dataclass order. -/
def profile_fields : List (Profile → Option String) :=
  [Profile.name, Profile.phone, Profile.phone2, Profile.zip_code,
   Profile.city, Profile.street, Profile.email, Profile.profile_url]

/-- JSON values as produced by json.loads for the JSON-LD payloads. -/
inductive JsonVal where
  | null
  | str (s : String)
  | num (n : Int)
  | bool (b : Bool)
  | arr (xs : List JsonVal)
  | obj (fields : List (String × JsonVal))

/-- Python dict.get on a JSON object: first binding of the key, None when
the value is not a dict or the key is absent. -/
def jget : JsonVal → String → Option JsonVal
  | .obj fs, k => fs.lookup k
  | _, _ => none

/-- clean_text (source _clean_text): strip whitespace; an empty result is
treated as absent (None). -/
def clean_text : Option String → Option String
  | none => none
  | some s =>
    let cleaned := py_strip s
    if cleaned = "" then none else some cleaned

/-- Application of _clean_text to a JSON value: only strings carry text
(the program only feeds string-valued fields to _clean_text). -/
def clean_json : JsonVal → Option String
  | .str s => clean_text (some s)
  | _ => none

/-- Composition _clean_text(x.get(key)) used throughout extraction. -/
def clean_json_opt : Option JsonVal → Option String
  | some v => clean_json v
  | none => none

/-- ensure_list (source _ensure_list): None (absent key or JSON null,
both of which Python sees as None) becomes [], a list stays itself, any
other value is wrapped in a one-element list. -/
def ensure_list : Option JsonVal → List JsonVal
  | none => []
  | some .null => []
  | some (.arr xs) => xs
  | some v => [v]

/-- One deduplicating phone append of the collection loops: the cleaned
value is appended only when present and not already collected. -/
def add_phone (acc : List String) : Option String → List String
  | some p => if p ∈ acc then acc else acc ++ [p]
  | none => acc

/-- Body of the contactPoint loop in extract_from_schema: for a dict
contact, its telephone is collected into the phone list and its email is
taken when no email has been taken yet; non-dict contacts are skipped. -/
def contact_step (st : List String × Option String) (c : JsonVal) : List String × Option String :=
  match c with
  | .obj fs =>
    let phones := add_phone st.1 (clean_json_opt (jget (.obj fs) "telephone"))
    let email :=
      match clean_json_opt (jget (.obj fs) "email") with
      | some e => if truthy st.2 then st.2 else some e
      | none => st.2
    (phones, email)
  | _ => st

/-- extract_from_schema from the source: build a Profile from one JSON-LD
item, collecting top-level telephone values then contact-point telephone
values with in-order deduplication, the first two becoming phone and
phone2, email from a contact point before the top-level email field, and
the address sub-object mapping street, postal code and city. -/
def extract_from_schema (item : JsonVal) : Profile :=
  let result : Profile := {}
  let result := { result with name := clean_json_opt (jget item "name") }
  let telephones :=
    (ensure_list (jget item "telephone")).foldl (fun acc v => add_phone acc (clean_json v)) []
  let st := (ensure_list (jget item "contactPoint")).foldl contact_step (telephones, none)
  let telephones := st.1
  let result := { result with email := st.2 }
  let result :=
    if telephones = [] then result
    else { result with phone := telephones.head?, phone2 := telephones[1]? }
  let result :=
    match jget item "address" with
    | some (.obj fs) =>
      { result with
        street := clean_json_opt (jget (.obj fs) "streetAddress")
        zip_code := clean_json_opt (jget (.obj fs) "postalCode")
        city := clean_json_opt (jget (.obj fs) "addressLocality") }
    | _ => result
  if truthy result.email then result
  else { result with email := clean_json_opt (jget item "email") }

/-- Type filter of _iter_schema_candidates: some declared @type matches
one of the four accepted names, case-insensitively. -/
def schema_type_matches (item : JsonVal) : Bool :=
  (ensure_list (jget item "@type")).any fun t =>
    match t with
    | .str s => lower_str s ∈ ["person", "financialservice", "localbusiness", "professionalservice"]
    | _ => false

/-- Test for a JSON dict (isinstance(item, dict)). -/
def is_json_obj : JsonVal → Bool
  | .obj _ => true
  | _ => false

/-- iter_schema_candidates (source _iter_schema_candidates): each script
is the json.loads outcome of one ld+json block (none when the text was
missing or not valid JSON, which is skipped silently); each payload is
normalised to a list whose dict items with a matching @type are kept, in
document order. -/
def iter_schema_candidates (scripts : List (Option JsonVal)) : List JsonVal :=
  scripts.foldr
    (fun sc acc =>
      match sc with
      | none => acc
      | some payload =>
        ((ensure_list (some payload)).filter fun item =>
          is_json_obj item && schema_type_matches item) ++ acc)
    []

/-- Microdata signals of one page, the outputs of the BeautifulSoup
queries in extract_microdata: text of the first itemprop=name element,
texts of all itemprop=telephone elements in document order, href of the
first mailto: anchor, and texts of the first street, postal-code and
locality elements. -/
structure MicroPage where
  name_tag : Option String := none
  phone_tags : List String := []
  mailto_href : Option String := none
  street_tag : Option String := none
  zip_tag : Option String := none
  city_tag : Option String := none
deriving DecidableEq

/-- Everything after the first colon, the whole string when there is no
colon (models href.split(given a colon, maxsplit 1) taking the last part). -/
def after_first_colon_chars : List Char → Option (List Char)
  | [] => none
  | c :: cs => if c = ':' then some cs else after_first_colon_chars cs

/-- String form of the mailto-href tail extraction. -/
def after_first_colon (s : String) : String :=
  match after_first_colon_chars s.toList with
  | some cs => String.mk cs
  | none => s

/-- extract_microdata from the source: the tier-2 fallback built from the
microdata signals, with the same two-slot deduplicated phone collection. -/
def extract_microdata (m : MicroPage) : Profile :=
  let profile : Profile := {}
  let profile :=
    match m.name_tag with
    | some t => { profile with name := clean_text (some t) }
    | none => profile
  let phones := m.phone_tags.foldl (fun acc t => add_phone acc (clean_text (some t))) []
  let profile :=
    if phones = [] then profile
    else { profile with phone := phones.head?, phone2 := phones[1]? }
  let profile :=
    match m.mailto_href with
    | some href =>
      if href = "" then profile
      else { profile with email := clean_text (some (after_first_colon href)) }
    | none => profile
  let profile :=
    match m.street_tag with
    | some t => { profile with street := clean_text (some t) }
    | none => profile
  let profile :=
    match m.zip_tag with
    | some t => { profile with zip_code := clean_text (some t) }
    | none => profile
  match m.city_tag with
  | some t => { profile with city := clean_text (some t) }
  | none => profile

/-- One fetched page as seen by parse_profile_page: its JSON-LD script
payloads and its microdata signals. -/
structure Page where
  scripts : List (Option JsonVal)
  micro : MicroPage

/-- Tier-1 stage of parse_profile_page: the record created with the
source URL, merged with every candidate JSON-LD block in order. -/
def tier1_profile (scripts : List (Option JsonVal)) (url : String) : Profile :=
  (iter_schema_candidates scripts).foldl
    (fun p item => merge_profiles p (extract_from_schema item))
    { profile_url := some url }

/-- parse_profile_page from the source: tier 1 over all schema blocks,
then the microdata fallback only when name or phone is still missing. -/
def parse_profile_page (page : Page) (url : String) : Profile :=
  let profile := tier1_profile page.scripts url
  if !truthy profile.name || !truthy profile.phone then
    merge_profiles profile (extract_microdata page.micro)
  else profile

/-- Outcome of one worker fetch of a profile URL: a successful response
body (already tokenized into a Page), an HTTP-level error raised by
raise_for_status, or a transport-level requests error. -/
inductive FetchOutcome where
  | success (page : Page)
  | http_error (status : Nat)
  | transport_error (msg : String)

/-- fetch_profile from the source, with the network abstracted as a
function from URL to outcome: both error classes are caught, logged and
yield None; a successful body is parsed into a record that is returned
regardless of how sparse it is (the jittered pacing sleep and the log
calls have no bearing on the returned value). -/
def fetch_profile (fetch : String → FetchOutcome) (url : String) : Option Profile :=
  match fetch url with
  | .http_error _ => none
  | .transport_error _ => none
  | .success page => some (parse_profile_page page url)

/-- ElementTree element: tag, optional text, child elements. -/
inductive Xml where
  | node (tag : String) (text : Option String) (children : List Xml)

/-- Tag of an element. -/
def Xml.tag : Xml → String
  | .node t _ _ => t

/-- Text of an element. -/
def Xml.text : Xml → Option String
  | .node _ tx _ => tx

/-- Children of an element. -/
def Xml.children : Xml → List Xml
  | .node _ _ ch => ch

mutual

/-- All elements with the given tag in the subtree rooted at an element,
the element itself included, in document order. -/
def findall_from (tag : String) : Xml → List Xml
  | .node t tx ch => (if t == tag then [Xml.node t tx ch] else []) ++ findall_list tag ch

/-- All elements with the given tag in a forest, in document order.
Applied to the children of the root this is root.findall(the
descendant-or-self path for that tag), which excludes the root itself. -/
def findall_list (tag : String) : List Xml → List Xml
  | [] => []
  | x :: xs => findall_from tag x ++ findall_list tag xs

end

/-- Collection loop of extract_loc_values: the stripped text of every
element whose raw text is present and non-empty (truthy), in order. -/
def loc_texts (elements : List Xml) : List String :=
  elements.filterMap fun e =>
    match e.text with
    | some t => if t = "" then none else some (py_strip t)
    | none => none

/-- extract_loc_values from the source. The argument is the ElementTree
parse outcome of the decoded body: none models an ET.ParseError, which is
logged and yields zero locations. Namespaced loc descendants are
collected; only when there are none at all are plain loc descendants
collected instead. -/
def extract_loc_values : Option Xml → List String
  | none => []
  | some root =>
    let loc_elements := findall_list (SITEMAP_NS ++ "loc") root.children
    let loc_elements :=
      if loc_elements.isEmpty then findall_list "loc" root.children else loc_elements
    loc_texts loc_elements

/-- Nested-sitemap test of expand_sitemap: the lowered location ends in
an XML or compressed-XML suffix. -/
def is_sitemap_ref (lowered : String) : Bool :=
  ends_with_str lowered ".xml" || ends_with_str lowered ".xml.gz"

/-- Profile-marker test of expand_sitemap: PROFILE_FRAGMENT occurs in the
lowered location. -/
def has_profile_marker (lowered : String) : Bool :=
  occurs_in PROFILE_FRAGMENT.toList lowered.toList

/-- Loop body of expand_sitemap over the extracted loc values. The state
is (collected profile URLs, visited set, fetch log); recur is the
recursive expansion used for nested sitemap references; none propagates
fuel exhaustion of the model (the source recursion has no fuel). -/
def expand_locs
    (recur : String → List String → List String → Option (List String × List String × List String)) :
    List String → List String → List String → Option (List String × List String × List String)
  | [], seen, log => some ([], seen, log)
  | loc :: rest, seen, log =>
    if loc = "" then expand_locs recur rest seen log
    else if is_sitemap_ref (lower_str loc) then
      match recur loc seen log with
      | none => none
      | some (urls, seen1, log1) =>
        match expand_locs recur rest seen1 log1 with
        | none => none
        | some (urls2, seen2, log2) => some (urls ++ urls2, seen2, log2)
    else if has_profile_marker (lower_str loc) then
      match expand_locs recur rest seen log with
      | none => none
      | some (urls2, seen2, log2) => some (loc :: urls2, seen2, log2)
    else expand_locs recur rest seen log

/-- expand_sitemap from the source. g maps each sitemap URL to the loc
values extracted from its fetched and decoded body (the composition of
fetch_response, _read_sitemap_content and extract_loc_values, the static
content of the network). seen is the shared visited set, and the third
list logs every URL actually fetched, in fetch order. An already-visited
URL is returned immediately with nothing collected and nothing fetched.
fuel bounds the recursion depth of the model only; the termination
theorem shows a sufficient fuel always exists. -/
def expand_sitemap (g : String → List String) :
    Nat → String → List String → List String → Option (List String × List String × List String)
  | 0, _, _, _ => none
  | fuel + 1, url, seen, log =>
    if url ∈ seen then some ([], seen, log)
    else expand_locs (fun u s l => expand_sitemap g fuel u s l) (g url) (url :: seen) (log ++ [url])

/-- collect_profile_urls from the source: each seed is expanded with a
fresh visited set, the discovered profile URLs accumulate into one set
(a seed whose expansion fails contributes nothing, mirroring the
per-seed try/except), and the set is returned sorted. -/
def collect_profile_urls (g : String → List String) (fuel : Nat)
    (sitemap_urls : List String) : List String :=
  let urls : Finset String :=
    sitemap_urls.foldl
      (fun acc s =>
        match expand_sitemap g fuel s [] [] with
        | some r => acc ∪ r.1.toFinset
        | none => acc)
      ∅
  urls.sort (fun a b => a ≤ b)

/-- In-order deduplication of a stream of optional phone values, as
performed by the collection loops of both tiers. -/
def dedup_in_order (cands : List (Option String)) : List String :=
  cands.foldl add_phone []

/-- Phone candidates of one JSON-LD item in discovery order: cleaned
top-level telephone values first, then cleaned contact-point telephone
values. -/
def schema_phone_candidates (item : JsonVal) : List (Option String) :=
  (ensure_list (jget item "telephone")).map clean_json ++
    (ensure_list (jget item "contactPoint")).map fun c => clean_json_opt (jget c "telephone")

/-- The deduplicated phone list of one JSON-LD item. -/
def schema_phones (item : JsonVal) : List String :=
  dedup_in_order (schema_phone_candidates item)

/-- The deduplicated phone list of the microdata scan. -/
def micro_phones (m : MicroPage) : List String :=
  dedup_in_order (m.phone_tags.map fun t => clean_text (some t))

/-- Concrete two-node sitemap universe for the cycle witness: the seed
references itself and one profile page. -/
def example_universe : List String :=
  ["https://d/s.xml", "https://d/vermoegensberater/x"]

/-- Concrete sitemap contents for the cycle witness: the seed lists
itself (a direct self-reference) and one profile URL. -/
def example_graph : String → List String :=
  fun u => if u = "https://d/s.xml" then example_universe else []

/-- Document mixing a namespaced and a plain loc element. -/
def mixed_doc : Xml :=
  Xml.node "sitemapindex" none
    [Xml.node (SITEMAP_NS ++ "loc") (some "http://a") [],
     Xml.node "loc" (some "http://b") []]

/-- Document with a single namespaced loc element with padded text. -/
def ns_doc : Xml :=
  Xml.node "sitemapindex" none
    [Xml.node (SITEMAP_NS ++ "loc") (some " http://a ") []]

/-- JSON-LD payload of a Person with name and telephone. -/
def jane_item : JsonVal :=
  JsonVal.obj
    [("@type", JsonVal.str "Person"), ("name", JsonVal.str "Jane Doe"),
     ("telephone", JsonVal.str "+49 1 2 3")]

/-- Script list holding just the Person payload. -/
def jane_scripts : List (Option JsonVal) := [some jane_item]

/-- Microdata offering conflicting values for every tier-1 field. -/
def noisy_micro : MicroPage :=
  { name_tag := some "Someone Else", phone_tags := ["+00 0"],
    mailto_href := some "mailto:x@y", street_tag := some "Other St",
    zip_tag := some "99999", city_tag := some "Elsewhere" }

/-- Page with no structured data and no microdata signal at all. -/
def empty_page : Page :=
  { scripts := [], micro := {} }

/-- Number of universe URLs not yet visited, the decreasing measure of
the cycle-guarded recursion. -/
def fresh_count (U seen : List String) : Nat :=
  (U.toFinset \ seen.toFinset).card

/-- Invariant of the fetch log: no URL was fetched twice, and every
fetched URL is in the visited set. -/
def fetch_inv (seen log : List String) : Prop :=
  log.Nodup ∧ ∀ u ∈ log, u ∈ seen

theorem merge_field_of_truthy (b e : Option String) (h : truthy b = true) :
    merge_field b e = b := by
  simp [merge_field, h]

theorem merge_field_none (b : Option String) : merge_field b none = b := by
  simp [merge_field, truthy]

theorem merge_field_self (b : Option String) : merge_field b b = b := by
  cases h : truthy b <;> simp [merge_field, h]

theorem merge_field_cases (b e : Option String) (h : merge_field b e ≠ b) :
    truthy b = false ∧ truthy e = true ∧ merge_field b e = e := by
  cases he : truthy e <;> cases hb : truthy b <;> simp [merge_field, he, hb] at h ⊢

/-- Every projection of merge_profiles is the field-level merge. -/
theorem field_merge (g : Profile → Option String) (hg : g ∈ profile_fields)
    (b e : Profile) : g (merge_profiles b e) = merge_field (g b) (g e) := by
  simp only [profile_fields, List.mem_cons, List.not_mem_nil, or_false] at hg
  rcases hg with rfl | rfl | rfl | rfl | rfl | rfl | rfl | rfl <;> rfl

/-- The schema extractor never sets the source URL field. -/
theorem extract_from_schema_profile_url (item : JsonVal) :
    (extract_from_schema item).profile_url = none := by
  unfold extract_from_schema
  dsimp only
  repeat first | rfl | split

/-- The microdata extractor never sets the source URL field. -/
theorem extract_microdata_profile_url (m : MicroPage) :
    (extract_microdata m).profile_url = none := by
  obtain ⟨nt, pt, mh, stg, zt, ct⟩ := m
  unfold extract_microdata
  cases nt <;> cases mh <;> cases stg <;> cases zt <;> cases ct <;>
    dsimp only <;> repeat first | rfl | split

/-- Merging schema candidates preserves a profile_url already present. -/
theorem tier1_fold_profile_url (items : List JsonVal) :
    ∀ p : Profile,
      (items.foldl (fun p item => merge_profiles p (extract_from_schema item)) p).profile_url =
        p.profile_url := by
  induction items with
  | nil => intro p; rfl
  | cons item items ih =>
    intro p
    rw [List.foldl_cons, ih]
    show merge_field p.profile_url (extract_from_schema item).profile_url = p.profile_url
    rw [extract_from_schema_profile_url, merge_field_none]

/-- The parsed record's source URL is exactly the requested URL. -/
theorem parse_profile_page_url (page : Page) (url : String) :
    (parse_profile_page page url).profile_url = some url := by
  have hT : (tier1_profile page.scripts url).profile_url = some url := by
    unfold tier1_profile
    rw [tier1_fold_profile_url]
  unfold parse_profile_page
  dsimp only
  split
  · show merge_field (tier1_profile page.scripts url).profile_url
        (extract_microdata page.micro).profile_url = some url
    rw [extract_microdata_profile_url, merge_field_none, hT]
  · exact hT

/-- C9: merge is idempotent — merging a record with an empty candidate
(all fields unset) leaves every field unchanged, and merging a record
with a copy of itself leaves every field unchanged. -/
theorem merge_idempotent (b : Profile) :
    merge_profiles b {} = b ∧ merge_profiles b b = b := by
  constructor <;>
    (cases b; simp [merge_profiles, merge_field_none, merge_field_self])

/-- C10: because merging is per-field, when the existing record has only
a primary phone and the candidate has both, the merged record keeps the
existing primary phone and takes the candidate's secondary phone; the
candidate's primary phone is not stored in either slot. -/
theorem merge_mixed_phone_sources (b c : Profile)
    (h1 : truthy b.phone = true) (h2 : truthy b.phone2 = false)
    (h3 : truthy c.phone = true) (h4 : truthy c.phone2 = true) :
    (merge_profiles b c).phone = b.phone ∧ (merge_profiles b c).phone2 = c.phone2 := by
  constructor
  · show merge_field b.phone c.phone = b.phone
    exact merge_field_of_truthy _ _ h1
  · show merge_field b.phone2 c.phone2 = c.phone2
    simp [merge_field, h2, h4]

/-- Witness for C10 at concrete profiles. -/
theorem merge_mixed_phone_sources_witness :
    truthy (Profile.phone { phone := some "+49 1" }) = true ∧
    truthy (Profile.phone2 { phone := some "+49 1" }) = false ∧
    truthy (Profile.phone { phone := some "+49 2", phone2 := some "+49 3" }) = true ∧
    truthy (Profile.phone2 { phone := some "+49 2", phone2 := some "+49 3" }) = true ∧
    ((merge_profiles { phone := some "+49 1" } { phone := some "+49 2", phone2 := some "+49 3" }).phone
        = some "+49 1" ∧
      (merge_profiles { phone := some "+49 1" } { phone := some "+49 2", phone2 := some "+49 3" }).phone2
        = some "+49 3") :=
  ⟨by decide, by decide, by decide, by decide,
   merge_mixed_phone_sources _ _ (by decide) (by decide) (by decide) (by decide)⟩

/-- C1: a merge sets a field from the candidate only if the record's
field is empty/unset and the candidate's value is non-empty, in which
case it takes the candidate's value; a field once truthy survives any
sequence of later merges unchanged; and the source URL set at record
creation is never overwritten by any merge during page parsing. -/
theorem merge_first_wins :
    (∀ g ∈ profile_fields, ∀ base extra : Profile,
        g (merge_profiles base extra) ≠ g base →
          truthy (g base) = false ∧ truthy (g extra) = true ∧
            g (merge_profiles base extra) = g extra) ∧
    (∀ g ∈ profile_fields, ∀ base : Profile, ∀ cs : List Profile,
        truthy (g base) = true → g (cs.foldl merge_profiles base) = g base) ∧
    (∀ (page : Page) (url : String), (parse_profile_page page url).profile_url = some url) := by
  refine ⟨?_, ?_, fun page url => parse_profile_page_url page url⟩
  · intro g hg base extra hne
    rw [field_merge g hg] at hne ⊢
    exact merge_field_cases _ _ hne
  · intro g hg base cs h
    induction cs generalizing base with
    | nil => rfl
    | cons e cs ih =>
      rw [List.foldl_cons]
      have h2 : g (merge_profiles base e) = g base := by
        rw [field_merge g hg, merge_field_of_truthy _ _ h]
      rw [ih (merge_profiles base e) (by rw [h2]; exact h), h2]

/-- Witness for C1 at a concrete field, record and candidate list. -/
theorem merge_first_wins_witness :
    (Profile.name ∈ profile_fields) ∧
    (truthy (Profile.name { name := some "Jane" : Profile }) = true ∧
      Profile.name
        (List.foldl merge_profiles { name := some "Jane" } [{ name := some "Else" }]) =
        some "Jane") ∧
    (Profile.name (merge_profiles {} { name := some "Jane" }) ≠ Profile.name ({} : Profile) ∧
      truthy (Profile.name ({} : Profile)) = false ∧
      truthy (Profile.name { name := some "Jane" : Profile }) = true) := by
  refine ⟨by simp [profile_fields], ⟨by decide, ?_⟩, ⟨by decide, ?_⟩⟩
  · exact merge_first_wins.2.1 Profile.name (by simp [profile_fields])
      { name := some "Jane" } [{ name := some "Else" }] (by decide)
  · have h := merge_first_wins.1 Profile.name (by simp [profile_fields])
      {} { name := some "Jane" } (by decide)
    exact ⟨h.1, h.2.1⟩

theorem add_phone_nodup (acc : List String) (o : Option String) (h : acc.Nodup) :
    (add_phone acc o).Nodup := by
  cases o with
  | none => exact h
  | some p =>
    by_cases hp : p ∈ acc
    · simpa [add_phone, hp] using h
    · simp [add_phone, hp, List.nodup_append, h]

theorem foldl_add_phone_nodup (cands : List (Option String)) :
    ∀ acc : List String, acc.Nodup → (cands.foldl add_phone acc).Nodup := by
  induction cands with
  | nil => intro acc h; exact h
  | cons c cands ih =>
    intro acc h
    rw [List.foldl_cons]
    exact ih _ (add_phone_nodup _ _ h)

theorem dedup_in_order_nodup (cands : List (Option String)) :
    (dedup_in_order cands).Nodup :=
  foldl_add_phone_nodup cands [] List.nodup_nil

/-- First component of the contactPoint fold: just the phone collection,
independent of the email threading. -/
theorem contact_fold_fst (cs : List JsonVal) :
    ∀ (tel : List String) (em : Option String),
      (cs.foldl contact_step (tel, em)).1 =
        cs.foldl (fun acc c => add_phone acc (clean_json_opt (jget c "telephone"))) tel := by
  induction cs with
  | nil => intro tel em; rfl
  | cons c cs ih =>
    intro tel em
    rw [List.foldl_cons, List.foldl_cons]
    cases c <;> simp only [contact_step] <;> rw [ih] <;> rfl

/-- The telephone list computed inside extract_from_schema equals the
deduplication of the discovery-ordered candidate stream. -/
theorem schema_tel_eq (item : JsonVal) :
    ((ensure_list (jget item "contactPoint")).foldl contact_step
        ((ensure_list (jget item "telephone")).foldl
          (fun acc v => add_phone acc (clean_json v)) [], none)).1 =
      schema_phones item := by
  rw [contact_fold_fst]
  unfold schema_phones dedup_in_order schema_phone_candidates
  rw [List.foldl_append, List.foldl_map, List.foldl_map]

theorem extract_from_schema_phone_eq (item : JsonVal) :
    (extract_from_schema item).phone = (schema_phones item).head? ∧
    (extract_from_schema item).phone2 = (schema_phones item)[1]? := by
  unfold extract_from_schema
  dsimp only
  rw [schema_tel_eq]
  constructor <;>
    (repeat first | rfl | (split
      <;> try simp_all [List.head?, List.isEmpty_iff]))

/-- Flat form of extract_microdata: the sequential field updates touch
pairwise distinct fields. -/
theorem extract_microdata_eq (m : MicroPage) :
    extract_microdata m =
      { name := match m.name_tag with | some t => clean_text (some t) | none => none
        phone := (micro_phones m).head?
        phone2 := (micro_phones m)[1]?
        zip_code := match m.zip_tag with | some t => clean_text (some t) | none => none
        city := match m.city_tag with | some t => clean_text (some t) | none => none
        street := match m.street_tag with | some t => clean_text (some t) | none => none
        email :=
          match m.mailto_href with
          | some href => if href = "" then none else clean_text (some (after_first_colon href))
          | none => none
        profile_url := none } := by
  obtain ⟨nt, pt, mh, stg, zt, ct⟩ := m
  have hm : pt.foldl (fun acc t => add_phone acc (clean_text (some t))) [] =
      micro_phones ⟨nt, pt, mh, stg, zt, ct⟩ := by
    unfold micro_phones dedup_in_order
    rw [List.foldl_map]
  unfold extract_microdata
  rw [hm]
  generalize micro_phones ⟨nt, pt, mh, stg, zt, ct⟩ = phs
  cases phs <;> cases nt <;> cases mh <;> cases stg <;> cases zt <;> cases ct <;>
    first
      | rfl
      | ((repeat' split) <;> simp_all)

theorem extract_microdata_phone_eq (m : MicroPage) :
    (extract_microdata m).phone = (micro_phones m).head? ∧
    (extract_microdata m).phone2 = (micro_phones m)[1]? := by
  rw [extract_microdata_eq]
  exact ⟨rfl, rfl⟩

/-- C2: in both the structured-data extractor and the micro-attribute
scan, phone values are collected in discovery order (top-level telephone
values before nested contact-point values) with duplicates dropped; the
first collected value is the primary phone, the second the secondary
phone, and everything after the first two is discarded — only two phone
slots exist. -/
theorem phone_two_slot_rule :
    (∀ item : JsonVal,
        (extract_from_schema item).phone = (schema_phones item).head? ∧
        (extract_from_schema item).phone2 = (schema_phones item)[1]? ∧
        (schema_phones item).Nodup) ∧
    (∀ m : MicroPage,
        (extract_microdata m).phone = (micro_phones m).head? ∧
        (extract_microdata m).phone2 = (micro_phones m)[1]? ∧
        (micro_phones m).Nodup) := by
  constructor
  · intro item
    exact ⟨(extract_from_schema_phone_eq item).1, (extract_from_schema_phone_eq item).2,
      dedup_in_order_nodup _⟩
  · intro m
    exact ⟨(extract_microdata_phone_eq m).1, (extract_microdata_phone_eq m).2,
      dedup_in_order_nodup _⟩

/-- C6: the tier-2 micro-attribute fallback runs exactly when, after all
tier-1 structured-data blocks have been merged, the record still misses
a name or a primary phone; when tier 1 supplied both, the parse result
is the tier-1 record and is independent of the page's microdata. -/
theorem tier2_only_fills_gaps :
    ∀ (scripts : List (Option JsonVal)) (url : String) (m1 m2 : MicroPage),
      ((truthy (tier1_profile scripts url).name = true ∧
          truthy (tier1_profile scripts url).phone = true) →
        parse_profile_page ⟨scripts, m1⟩ url = tier1_profile scripts url ∧
        parse_profile_page ⟨scripts, m1⟩ url = parse_profile_page ⟨scripts, m2⟩ url) ∧
      (¬(truthy (tier1_profile scripts url).name = true ∧
          truthy (tier1_profile scripts url).phone = true) →
        parse_profile_page ⟨scripts, m1⟩ url =
          merge_profiles (tier1_profile scripts url) (extract_microdata m1)) := by
  intro scripts url m1 m2
  constructor
  · rintro ⟨h1, h2⟩
    unfold parse_profile_page
    simp [h1, h2]
  · intro h
    unfold parse_profile_page
    dsimp only
    have hc : (!truthy (tier1_profile scripts url).name ||
        !truthy (tier1_profile scripts url).phone) = true := by
      cases hn : truthy (tier1_profile scripts url).name <;>
        cases hp : truthy (tier1_profile scripts url).phone <;> simp_all
    rw [if_pos hc]

/-- Witness for C6: a page whose single Person block already supplies
name and phone, so two pages differing only in microdata parse alike. -/
theorem tier2_only_fills_gaps_witness :
    (truthy (tier1_profile jane_scripts "u").name = true ∧
      truthy (tier1_profile jane_scripts "u").phone = true) ∧
    parse_profile_page ⟨jane_scripts, noisy_micro⟩ "u" = tier1_profile jane_scripts "u" ∧
    parse_profile_page ⟨jane_scripts, noisy_micro⟩ "u" = parse_profile_page ⟨jane_scripts, {}⟩ "u" :=
  ⟨⟨by decide, by decide⟩,
   (tier2_only_fills_gaps jane_scripts "u" noisy_micro {}).1 ⟨by decide, by decide⟩⟩

/-- C7: for every URL, an HTTP-level error response and a transport-level
error each yield no record for that URL (a None result) from the worker,
rather than raising out of the per-URL unit of work. -/
theorem fetch_failures_yield_none :
    ∀ (fetch : String → FetchOutcome) (url : String),
      (∀ status, fetch url = .http_error status → fetch_profile fetch url = none) ∧
      (∀ msg, fetch url = .transport_error msg → fetch_profile fetch url = none) := by
  intro fetch url
  constructor <;> (intro x h; unfold fetch_profile; rw [h])

/-- Witness for C7 at a concrete failing fetch of each class. -/
theorem fetch_failures_yield_none_witness :
    ((fun _ => FetchOutcome.http_error 404) "u" = FetchOutcome.http_error 404 ∧
      fetch_profile (fun _ => FetchOutcome.http_error 404) "u" = none) ∧
    ((fun _ => FetchOutcome.transport_error "timeout") "u" =
        FetchOutcome.transport_error "timeout" ∧
      fetch_profile (fun _ => FetchOutcome.transport_error "timeout") "u" = none) :=
  ⟨⟨rfl, (fetch_failures_yield_none (fun _ => FetchOutcome.http_error 404) "u").1 404 rfl⟩,
   ⟨rfl, (fetch_failures_yield_none (fun _ => FetchOutcome.transport_error "timeout") "u").2
      "timeout" rfl⟩⟩

/-- C8: a successful fetch always returns the parsed record, however
empty of signal it is, and that record's source URL is the requested
URL. -/
theorem success_returns_record :
    ∀ (fetch : String → FetchOutcome) (url : String) (page : Page),
      fetch url = .success page →
      fetch_profile fetch url = some (parse_profile_page page url) ∧
      (parse_profile_page page url).profile_url = some url := by
  intro fetch url page h
  refine ⟨?_, parse_profile_page_url page url⟩
  unfold fetch_profile
  rw [h]

/-- Witness for C8: a page with no signal at all still yields a record,
empty except for the source URL. -/
theorem success_returns_record_witness :
    ((fun _ => FetchOutcome.success empty_page) "u" = FetchOutcome.success empty_page) ∧
    (fetch_profile (fun _ => FetchOutcome.success empty_page) "u" =
        some (parse_profile_page empty_page "u") ∧
      (parse_profile_page empty_page "u").profile_url = some "u") ∧
    (parse_profile_page empty_page "u").name = none ∧
    (parse_profile_page empty_page "u").phone = none ∧
    (parse_profile_page empty_page "u").email = none :=
  ⟨rfl, success_returns_record (fun _ => FetchOutcome.success empty_page) "u" empty_page rfl,
   by decide, by decide, by decide⟩

/-- Counterexample for C5: in a document mixing a namespaced location
element (text http://a) with a plain one (text http://b), extraction
returns only the namespaced value; the non-empty plain location value
http://b is present in the document yet not returned. -/
theorem extract_loc_values_mixed_counterexample :
    extract_loc_values (some mixed_doc) = ["http://a"] ∧
    (findall_list "loc" mixed_doc.children).map Xml.text = [some "http://b"] ∧
    "http://b" ∉ extract_loc_values (some mixed_doc) := by
  refine ⟨by decide, by decide, by decide⟩

/-- C5 (amended): location extraction returns the stripped text of every
location element whose raw text is present and non-empty, drawn from the
namespaced form whenever at least one namespaced location element exists
anywhere in the document and otherwise from the plain form (so in a
mixed document the plain values are ignored); a malformed body yields
zero locations instead of aborting. -/
theorem extract_loc_values_amended :
    extract_loc_values none = [] ∧
    (∀ root : Xml, findall_list (SITEMAP_NS ++ "loc") root.children ≠ [] →
      extract_loc_values (some root) =
        loc_texts (findall_list (SITEMAP_NS ++ "loc") root.children)) ∧
    (∀ root : Xml, findall_list (SITEMAP_NS ++ "loc") root.children = [] →
      extract_loc_values (some root) = loc_texts (findall_list "loc" root.children)) := by
  refine ⟨rfl, ?_, ?_⟩
  · intro root h
    have hne : (findall_list (SITEMAP_NS ++ "loc") root.children).isEmpty = false := by
      cases hq : findall_list (SITEMAP_NS ++ "loc") root.children with
      | nil => exact absurd hq h
      | cons a l => rfl
    simp [extract_loc_values, hne]
  · intro root h
    simp [extract_loc_values, h]

/-- Witness for C5 (amended) at a document with one namespaced location
element whose text needs stripping. -/
theorem extract_loc_values_amended_witness :
    (findall_list (SITEMAP_NS ++ "loc") ns_doc.children).isEmpty = false ∧
    extract_loc_values (some ns_doc) =
      loc_texts (findall_list (SITEMAP_NS ++ "loc") ns_doc.children) ∧
    extract_loc_values (some ns_doc) = ["http://a"] :=
  ⟨by decide, extract_loc_values_amended.2.1 ns_doc (List.cons_ne_nil _ _), by decide⟩

theorem fresh_count_le (U seen seen' : List String) (h : seen ⊆ seen') :
    fresh_count U seen' ≤ fresh_count U seen := by
  apply Finset.card_le_card
  intro x hx
  simp only [Finset.mem_sdiff, List.mem_toFinset] at hx ⊢
  exact ⟨hx.1, fun hc => hx.2 (h hc)⟩

theorem fresh_count_lt (U seen : List String) (url : String)
    (hu : url ∈ U) (hn : url ∉ seen) :
    fresh_count U (url :: seen) < fresh_count U seen := by
  apply Finset.card_lt_card
  rw [Finset.ssubset_def]
  constructor
  · intro x hx
    simp only [Finset.mem_sdiff, List.mem_toFinset, List.mem_cons] at hx ⊢
    exact ⟨hx.1, fun hc => hx.2 (Or.inr hc)⟩
  · intro hsub
    have hmem : url ∈ U.toFinset \ seen.toFinset := by
      simp only [Finset.mem_sdiff, List.mem_toFinset]
      exact ⟨hu, hn⟩
    have h2 := hsub hmem
    rw [Finset.mem_sdiff] at h2
    exact h2.2 (by simp [List.mem_toFinset])

theorem expand_locs_seen_mono
    (recur : String → List String → List String → Option (List String × List String × List String))
    (hrec : ∀ u s l r, recur u s l = some r → s ⊆ r.2.1) :
    ∀ locs seen log r, expand_locs recur locs seen log = some r → seen ⊆ r.2.1 := by
  intro locs
  induction locs with
  | nil =>
    intro seen log r h
    simp only [expand_locs] at h
    cases h
    exact fun _ hx => hx
  | cons loc rest ih =>
    intro seen log r h
    simp only [expand_locs] at h
    split at h
    · exact ih _ _ _ h
    · split at h
      · split at h
        · exact Option.noConfusion h
        · rename_i r1 u1 s1 l1 heq
          split at h
          · exact Option.noConfusion h
          · rename_i r2 u2 s2 l2 heq2
            cases h
            exact fun x hx => ih _ _ _ heq2 (hrec _ _ _ _ heq hx)
      · split at h
        · split at h
          · exact Option.noConfusion h
          · rename_i r2 u2 s2 l2 heq2
            cases h
            exact ih seen log (u2, s2, l2) heq2
        · exact ih _ _ _ h

theorem expand_sitemap_seen_mono (g : String → List String) :
    ∀ fuel url seen log r, expand_sitemap g fuel url seen log = some r → seen ⊆ r.2.1 := by
  intro fuel
  induction fuel with
  | zero =>
    intro url seen log r h
    exact Option.noConfusion h
  | succ fuel ih =>
    intro url seen log r h
    simp only [expand_sitemap] at h
    split at h
    · cases h
      exact fun _ hx => hx
    · have hsub := expand_locs_seen_mono _ (fun u s l r hr => ih u s l r hr) _ _ _ _ h
      exact fun x hx => hsub (List.mem_cons_of_mem _ hx)

theorem expand_locs_fetch_inv
    (recur : String → List String → List String → Option (List String × List String × List String))
    (hrec : ∀ u s l r, recur u s l = some r → fetch_inv s l → fetch_inv r.2.1 r.2.2) :
    ∀ locs seen log r, expand_locs recur locs seen log = some r →
      fetch_inv seen log → fetch_inv r.2.1 r.2.2 := by
  intro locs
  induction locs with
  | nil =>
    intro seen log r h hinv
    simp only [expand_locs] at h
    cases h
    exact hinv
  | cons loc rest ih =>
    intro seen log r h hinv
    simp only [expand_locs] at h
    split at h
    · exact ih _ _ _ h hinv
    · split at h
      · split at h
        · exact Option.noConfusion h
        · rename_i r1 u1 s1 l1 heq
          split at h
          · exact Option.noConfusion h
          · rename_i r2 u2 s2 l2 heq2
            cases h
            exact ih s1 l1 (u2, s2, l2) heq2 (hrec _ _ _ _ heq hinv)
      · split at h
        · split at h
          · exact Option.noConfusion h
          · rename_i r2 u2 s2 l2 heq2
            cases h
            exact ih seen log (u2, s2, l2) heq2 hinv
        · exact ih _ _ _ h hinv

theorem expand_sitemap_fetch_inv (g : String → List String) :
    ∀ fuel url seen log r, expand_sitemap g fuel url seen log = some r →
      fetch_inv seen log → fetch_inv r.2.1 r.2.2 := by
  intro fuel
  induction fuel with
  | zero =>
    intro url seen log r h hinv
    exact Option.noConfusion h
  | succ fuel ih =>
    intro url seen log r h hinv
    simp only [expand_sitemap] at h
    split at h
    · cases h
      exact hinv
    · rename_i hv
      have hinv2 : fetch_inv (url :: seen) (log ++ [url]) := by
        obtain ⟨hnd, hmem⟩ := hinv
        constructor
        · rw [List.nodup_append]
          refine ⟨hnd, List.nodup_singleton _, ?_⟩
          intro a ha ha2
          rw [List.mem_singleton] at ha2
          subst ha2
          exact hv (hmem a ha)
        · intro u hu
          rcases List.mem_append.mp hu with hu | hu
          · exact List.mem_cons_of_mem _ (hmem u hu)
          · cases List.mem_singleton.mp hu
            exact List.mem_cons_self _ _
      exact expand_locs_fetch_inv _ (fun u s l r hr hi => ih u s l r hr hi) _ _ _ _ h hinv2

theorem expand_locs_isSome
    (recur : String → List String → List String → Option (List String × List String × List String))
    (U : List String) (B : Nat)
    (hrec_some : ∀ u s l, u ∈ U → fresh_count U s < B → (recur u s l).isSome = true)
    (hrec_mono : ∀ u s l r, recur u s l = some r → s ⊆ r.2.1) :
    ∀ locs seen log, (∀ x ∈ locs, x ∈ U) → fresh_count U seen < B →
      (expand_locs recur locs seen log).isSome = true := by
  intro locs
  induction locs with
  | nil => intro seen log hU hB; rfl
  | cons loc rest ih =>
    intro seen log hU hB
    simp only [expand_locs]
    split
    · exact ih _ _ (fun x hx => hU x (List.mem_cons_of_mem _ hx)) hB
    · split
      · have h1 : (recur loc seen log).isSome = true :=
          hrec_some loc seen log (hU loc (List.mem_cons_self _ _)) hB
        split
        · rename_i heq
          rw [heq] at h1
          simp at h1
        · rename_i r1 u1 s1 l1 heq
          have hsub : seen ⊆ s1 := hrec_mono _ _ _ _ heq
          have hB2 : fresh_count U s1 < B :=
            lt_of_le_of_lt (fresh_count_le U seen s1 hsub) hB
          have h2 : (expand_locs recur rest s1 l1).isSome = true :=
            ih s1 l1 (fun x hx => hU x (List.mem_cons_of_mem _ hx)) hB2
          split
          · rename_i heq2
            rw [heq2] at h2
            simp at h2
          · rfl
      · split
        · have h2 : (expand_locs recur rest seen log).isSome = true :=
            ih seen log (fun x hx => hU x (List.mem_cons_of_mem _ hx)) hB
          split
          · rename_i heq2
            rw [heq2] at h2
            simp at h2
          · rfl
        · exact ih _ _ (fun x hx => hU x (List.mem_cons_of_mem _ hx)) hB

theorem expand_sitemap_isSome (g : String → List String) (U : List String)
    (hU : ∀ u, ∀ l ∈ g u, l ∈ U) :
    ∀ fuel url seen log, url ∈ U → fresh_count U seen < fuel →
      (expand_sitemap g fuel url seen log).isSome = true := by
  intro fuel
  induction fuel with
  | zero =>
    intro url seen log hu hb
    exact absurd hb (Nat.not_lt_zero _)
  | succ fuel ih =>
    intro url seen log hu hb
    simp only [expand_sitemap]
    split
    · rfl
    · rename_i hv
      apply expand_locs_isSome _ U fuel
      · exact fun u s l hu2 hb2 => ih u s l hu2 hb2
      · exact fun u s l r hr => expand_sitemap_seen_mono g fuel u s l r hr
      · exact fun x hx => hU url x hx
      · have hlt := fresh_count_lt U seen url hu hv
        omega

/-- C3: sitemap expansion terminates on every finite sitemap graph, even
with direct or mutual cycles (any fuel beyond the number of universe
URLs suffices, so the unfueled source recursion ends); within one
expansion the fetch log never repeats a URL, so each sitemap URL is
fetched at most once; and an already-visited URL is skipped immediately,
with no fetch and no error. -/
theorem sitemap_expansion_cycle_safe :
    (∀ (g : String → List String) (U : List String) (url : String),
        (∀ u, ∀ l ∈ g u, l ∈ U) → url ∈ U →
        (expand_sitemap g (U.length + 1) url [] []).isSome = true) ∧
    (∀ (g : String → List String) (fuel : Nat) (url : String) r,
        expand_sitemap g fuel url [] [] = some r → r.2.2.Nodup) ∧
    (∀ (g : String → List String) (fuel : Nat) (url : String) (seen log : List String),
        url ∈ seen → expand_sitemap g (fuel + 1) url seen log = some ([], seen, log)) := by
  refine ⟨?_, ?_, ?_⟩
  · intro g U url hU hu
    apply expand_sitemap_isSome g U hU
    · exact hu
    · have hle : fresh_count U [] ≤ U.length := by
        unfold fresh_count
        simp only [List.toFinset_nil, Finset.sdiff_empty]
        exact List.toFinset_card_le U
      omega
  · intro g fuel url r h
    exact (expand_sitemap_fetch_inv g fuel url [] [] r h
      ⟨List.nodup_nil, by simp⟩).1
  · intro g fuel url seen log h
    simp [expand_sitemap, h]

/-- Witness for C3 on a self-referencing two-URL sitemap graph. -/
theorem sitemap_expansion_cycle_safe_witness :
    (∀ u, ∀ l ∈ example_graph u, l ∈ example_universe) ∧
    ("https://d/s.xml" ∈ example_universe) ∧
    (expand_sitemap example_graph (example_universe.length + 1)
        "https://d/s.xml" [] []).isSome = true ∧
    (expand_sitemap example_graph 3 "https://d/s.xml" [] [] =
      some (["https://d/vermoegensberater/x"], ["https://d/s.xml"], ["https://d/s.xml"])) ∧
    (["https://d/s.xml"] : List String).Nodup ∧
    ("https://d/s.xml" ∈ (["https://d/s.xml"] : List String)) ∧
    expand_sitemap example_graph 1 "https://d/s.xml" ["https://d/s.xml"] [] =
      some ([], ["https://d/s.xml"], []) := by
  have hcl : ∀ u, ∀ l ∈ example_graph u, l ∈ example_universe := by
    intro u l hl
    by_cases h : u = "https://d/s.xml"
    · simpa [example_graph, h] using hl
    · simp [example_graph, h] at hl
  refine ⟨hcl, by decide, ?_, by decide, ?_, by decide, ?_⟩
  · exact sitemap_expansion_cycle_safe.1 example_graph example_universe
      "https://d/s.xml" hcl (by decide)
  · exact sitemap_expansion_cycle_safe.2.1 example_graph 3 "https://d/s.xml"
      (["https://d/vermoegensberater/x"], ["https://d/s.xml"], ["https://d/s.xml"]) (by decide)
  · exact sitemap_expansion_cycle_safe.2.2 example_graph 0 "https://d/s.xml"
      ["https://d/s.xml"] [] (by decide)

/-- C4: the walker's final output is the union over all seeds of the
profile URLs discovered by their expansions, deduplicated and returned
lexicographically sorted; on the same static input the output is the
same on every run (the function is deterministic). -/
theorem collect_profile_urls_spec :
    ∀ (g : String → List String) (fuel : Nat) (seeds : List String),
      (collect_profile_urls g fuel seeds).Sorted (fun a b => a ≤ b) ∧
      (collect_profile_urls g fuel seeds).Nodup ∧
      (∀ u, u ∈ collect_profile_urls g fuel seeds ↔
        ∃ s ∈ seeds, ∃ r, expand_sitemap g fuel s [] [] = some r ∧ u ∈ r.1) ∧
      collect_profile_urls g fuel seeds = collect_profile_urls g fuel seeds := by
  intro g fuel seeds
  refine ⟨Finset.sort_sorted _ _, Finset.sort_nodup _ _, ?_, rfl⟩
  intro u
  unfold collect_profile_urls
  dsimp only
  rw [Finset.mem_sort]
  have key : ∀ (ss : List String) (acc : Finset String),
      u ∈ ss.foldl (fun acc s =>
          match expand_sitemap g fuel s [] [] with
          | some r => acc ∪ r.1.toFinset
          | none => acc) acc ↔
        u ∈ acc ∨ ∃ s ∈ ss, ∃ r, expand_sitemap g fuel s [] [] = some r ∧ u ∈ r.1 := by
    intro ss
    induction ss with
    | nil => intro acc; simp
    | cons s ss ih =>
      intro acc
      rw [List.foldl_cons, ih]
      cases hr : expand_sitemap g fuel s [] [] with
      | none => simp [hr, or_assoc]
      | some r =>
        obtain ⟨p1, p2, p3⟩ := r
        simp [hr, Finset.mem_union, List.mem_toFinset, or_assoc]
  rw [key seeds ∅]
  simp
